import Mathlib

/-!
Verification development for the post-room worker: a queue-draining
mail-delivery worker. The definitions below are a shallow embedding of the
program's current source (the revision with the unauthenticated SMTP
fallback): the task data model, environment validation, message rendering,
the two SMTP transport paths, and the dispatch loop with its
outstanding-work counter and interrupt-driven drain, modelled as a labelled
transition system.
-/

set_option maxRecDepth 10000

/-- Embedding of the Mail struct: a task decoded from a queue entry
(JSON fields subject, message, recipients). -/
structure Mail where
  subject : String
  message : String
  recipients : List String
deriving DecidableEq, Repr

/-- Embedding of the AppOptions struct holding the environment-sourced
configuration. -/
structure AppOptions where
  SMTPUsername : String
  SMTPPassword : String
  SMTPHost : String
  SMTPPort : String
  SenderAddress : String
  RedisAddress : String
  RedisKey : String
deriving DecidableEq, Repr

def smtpUsernameKey : String := "SMTP_USERNAME"

def smtpPasswordKey : String := "SMTP_PASSWORD"

def smtpHostKey : String := "SMTP_HOST"

def smtpPortKey : String := "SMTP_PORT"

def senderAddressKey : String := "SENDER_ADDRESS"

def redisAddressKey : String := "REDIS_ADDRESS"

def redisKeyKey : String := "REDIS_KEY"

def envErrorMsg (key : String) : String := "no ENV value provided for " ++ key

/-- Embedding of validateEnvironment. The environment is a partial map from
variable names to values (os.LookupEnv). Username and password use the
two-valued lookup with the error ignored, so an unset variable yields the
empty string; host, port, sender address and queue address are required;
the queue key defaults to "tasks" when unset. -/
def validateEnvironment (env : String → Option String) : Except String AppOptions :=
  let username := match env smtpUsernameKey with | some u => u | none => ""
  let password := match env smtpPasswordKey with | some p => p | none => ""
  match env smtpHostKey with
  | none => Except.error (envErrorMsg smtpHostKey)
  | some host =>
  match env smtpPortKey with
  | none => Except.error (envErrorMsg smtpPortKey)
  | some port =>
  match env senderAddressKey with
  | none => Except.error (envErrorMsg senderAddressKey)
  | some address =>
  match env redisAddressKey with
  | none => Except.error (envErrorMsg redisAddressKey)
  | some redisAddress =>
  match env redisKeyKey with
  | none =>
      Except.ok
        { SMTPUsername := username, SMTPPassword := password, SMTPHost := host,
          SMTPPort := port, SenderAddress := address, RedisAddress := redisAddress,
          RedisKey := "tasks" }
  | some redisKey =>
      Except.ok
        { SMTPUsername := username, SMTPPassword := password, SMTPHost := host,
          SMTPPort := port, SenderAddress := address, RedisAddress := redisAddress,
          RedisKey := redisKey }

/-- The list name the dispatch loop actually passes to the blocking pop:
the call site is rdb.BRPop(ctx, 0, "tasks"), a string literal, not
options.RedisKey. -/
def dispatchPopKey : String := "tasks"

/-- Model of Go fmt.Sprintf and fmt.Fprintf restricted to format strings
whose verb occurrences are %s and %% — the only verbs in this program's
template. Operands are spliced verbatim and never rescanned. A %s with no
remaining operand renders as Go's missing-operand expansion, a lone % at
the end of the format as Go's missing-verb expansion, and any other
character after % as a missing-operand expansion of that verb (the shape
Go produces when no operand is supplied, the only way such verbs arise in
this program). -/
def goSprintf : List Char → List String → List Char
  | [], _ => []
  | c :: rest, args =>
      if c = '%' then
        match rest with
        | [] => "%!(NOVERB)".data
        | v :: rest2 =>
            if v = '%' then '%' :: goSprintf rest2 args
            else if v = 's' then
              match args with
              | a :: args2 => a.data ++ goSprintf rest2 args2
              | [] => "%!s(MISSING)".data ++ goSprintf rest2 []
            else '%' :: '!' :: v :: ("(MISSING)".data ++ goSprintf rest2 args)
      else c :: goSprintf rest args

/-- The fixed MIME template the Mailer is constructed with. -/
def messageTemplate : String :=
  "Content-Type: text/html; charset=\"UTF-8\";\r\nTo: %s\r\nFrom: %s\r\nSubject: %s\r\n\r\n%s"

/-- Embedding of the smtp.PlainAuth value built from the configured
credentials. -/
structure PlainAuth where
  identity : String
  username : String
  password : String
  host : String
deriving DecidableEq, Repr

/-- Embedding of the Mailer struct. The auth field is nil (none) when no
credentials were configured. -/
structure Mailer where
  template : String
  senderAddress : String
  host : String
  port : String
  auth : Option PlainAuth
deriving DecidableEq, Repr

/-- Rendering step shared by both transport paths: the first line of
sendMail overwrites mail.Message with
fmt.Sprintf(m.template, strings.Join(mail.Recipients, ", "),
m.senderAddress, mail.Subject, mail.Message). -/
def Mailer.render (m : Mailer) (mail : Mail) : String :=
  String.mk (goSprintf m.template.data
    [String.intercalate (", ") mail.recipients, m.senderAddress, mail.subject, mail.message])

/-- Observable SMTP-level actions of one delivery. -/
inductive SMTPAction where
  | sendMailAuth (addr : String) (a : PlainAuth) (sender : String)
      (rcpts : List String) (msg : String)
  | dial (addr : String)
  | mailFrom (sender : String)
  | rcptTo (rcpt : String)
  | dataStream (bytes : List Char)
  | quit
deriving DecidableEq, Repr

/-- Embedding of Mailer.sendMailUnauthenticated. The result is the
transcript of commands issued on a session in which the server accepts
every command; each error path in the source returns early, issuing a
prefix of this transcript. The result is none exactly when the source
panics: mail.Recipients[0] indexes an empty slice. The body write models
fmt.Fprintf(wc, mail.Message) — the message itself is the format string,
applied to an empty operand list. The deferred Quit closes the session
last. -/
def Mailer.sendMailUnauthenticated (m : Mailer) (mail : Mail) : Option (List SMTPAction) :=
  match mail.recipients with
  | [] => none
  | r :: _ =>
      some [SMTPAction.dial (m.host ++ ":" ++ m.port),
            SMTPAction.mailFrom m.senderAddress,
            SMTPAction.rcptTo r,
            SMTPAction.dataStream (goSprintf mail.message.data []),
            SMTPAction.quit]

/-- Embedding of Mailer.sendMail: render the message into mail.Message,
then dispatch on m.auth — nil auth takes the unauthenticated path,
otherwise one authenticated smtp.SendMail submission against host:port
carrying the full recipient list and the rendered message bytes. -/
def Mailer.sendMail (m : Mailer) (mail : Mail) : Option (List SMTPAction) :=
  let mail2 : Mail := { mail with message := m.render mail }
  match m.auth with
  | none => m.sendMailUnauthenticated mail2
  | some a =>
      some [SMTPAction.sendMailAuth (m.host ++ ":" ++ m.port) a m.senderAddress
        mail2.recipients mail2.message]

/-- Log events the worker emits, abstracted from the log call sites. -/
inductive LogEvent where
  | processing
  | unmarshalError
  | authWarning
  | popFatalError
  | drainingNotice
  | tasksFinished
  | exiting
deriving DecidableEq, Repr

/-- Embedding of the Mailer construction in main: the template literal and
addressing fields, then the conditional — when both configured username and
password are non-empty the auth field is set to
smtp.PlainAuth("", username, password, host), otherwise a warning is logged
and auth stays nil. Returns the mailer and the startup log events. -/
def mkMailer (options : AppOptions) : Mailer × List LogEvent :=
  let m : Mailer :=
    { template := messageTemplate, senderAddress := options.SenderAddress,
      host := options.SMTPHost, port := options.SMTPPort, auth := none }
  let a : PlainAuth :=
    { identity := "", username := options.SMTPUsername,
      password := options.SMTPPassword, host := options.SMTPHost }
  if 0 < options.SMTPUsername.length ∧ 0 < options.SMTPPassword.length then
    ({ m with auth := some a }, [])
  else
    (m, [LogEvent.authWarning])

/-- JSON values, the target of the decoding model. Numbers keep their raw
text: the Mail struct has no numeric field, so their value is never
consulted. -/
inductive JValue where
  | null
  | bool (b : Bool)
  | num (raw : String)
  | str (s : String)
  | arr (elems : List JValue)
  | obj (fields : List (String × JValue))

/-- Whitespace characters the JSON grammar skips between tokens. -/
def isJSONWS (c : Char) : Bool :=
  c = ' ' || c = '\t' || c = '\n' || c = '\r'

/-- Skip leading JSON whitespace. -/
def skipWS : List Char → List Char
  | [] => []
  | c :: rest => if isJSONWS c then skipWS rest else c :: rest

/-- Value of a hexadecimal digit, if the character is one. -/
def hexVal (c : Char) : Option Nat :=
  if '0' ≤ c ∧ c ≤ '9' then some (c.toNat - '0'.toNat)
  else if 'a' ≤ c ∧ c ≤ 'f' then some (c.toNat - 'a'.toNat + 10)
  else if 'A' ≤ c ∧ c ≤ 'F' then some (c.toNat - 'A'.toNat + 10)
  else none

/-- Body of a JSON string after the opening quote: returns the decoded
content and the remaining input after the closing quote. Handles the
standard escapes and four-digit unicode escapes (surrogate pairing
omitted); raw control characters below 0x20 are rejected, as Go's decoder
rejects them. -/
def parseStringBody : List Char → Option (List Char × List Char)
  | [] => none
  | '"' :: rest => some ([], rest)
  | '\\' :: 'u' :: h1 :: h2 :: h3 :: h4 :: rest =>
      match hexVal h1, hexVal h2, hexVal h3, hexVal h4 with
      | some a, some b, some c, some d =>
          (parseStringBody rest).map
            (fun p => (Char.ofNat (((a * 16 + b) * 16 + c) * 16 + d) :: p.1, p.2))
      | _, _, _, _ => none
  | '\\' :: e :: rest =>
      let esc : Option Char :=
        if e = '"' then some '"'
        else if e = '\\' then some '\\'
        else if e = '/' then some '/'
        else if e = 'b' then some (Char.ofNat 8)
        else if e = 'f' then some (Char.ofNat 12)
        else if e = 'n' then some '\n'
        else if e = 'r' then some '\r'
        else if e = 't' then some '\t'
        else none
      match esc with
      | none => none
      | some c => (parseStringBody rest).map (fun p => (c :: p.1, p.2))
  | c :: rest =>
      if c.toNat < 32 then none
      else (parseStringBody rest).map (fun p => (c :: p.1, p.2))

/-- Characters a JSON number literal may contain. The model consumes them
greedily; since no Mail field is numeric, the digits are never
interpreted. -/
def isNumChar (c : Char) : Bool :=
  c.isDigit || c = '-' || c = '+' || c = '.' || c = 'e' || c = 'E'

/-- Parse a number token (raw text). -/
def parseNumberTok (input : List Char) : Option (JValue × List Char) :=
  let digits := input.takeWhile isNumChar
  if digits.isEmpty then none
  else some (JValue.num (String.mk digits), input.dropWhile isNumChar)

/-- Parsing modes of the recursive-descent JSON parser: a single value, the
remaining elements of a non-empty array (value, then comma and repeat or
closing bracket), or the remaining fields of a non-empty object (quoted
key, colon, value, then comma and repeat or closing brace). The modes are
folded into one fuel-structural function so that the parser reduces by
computation. -/
inductive PMode where
  | val
  | arrElems (acc : List JValue)
  | objFields (acc : List (String × JValue))

/-- Recursive-descent JSON parser, fuel-bounded. The fuel only bounds
recursion depth; parseJSON supplies more fuel than any input can
consume. -/
def parseP : Nat → PMode → List Char → Option (JValue × List Char)
  | 0, _, _ => none
  | Nat.succ fuel, PMode.val, input =>
      (match skipWS input with
       | 't' :: 'r' :: 'u' :: 'e' :: rest => some (JValue.bool true, rest)
       | 'f' :: 'a' :: 'l' :: 's' :: 'e' :: rest => some (JValue.bool false, rest)
       | 'n' :: 'u' :: 'l' :: 'l' :: rest => some (JValue.null, rest)
       | '"' :: rest => (parseStringBody rest).map (fun p => (JValue.str (String.mk p.1), p.2))
       | '[' :: rest =>
           (match skipWS rest with
            | ']' :: rest2 => some (JValue.arr [], rest2)
            | other => parseP fuel (PMode.arrElems []) other)
       | '\x7b' :: rest =>
           (match skipWS rest with
            | '\x7d' :: rest2 => some (JValue.obj [], rest2)
            | other => parseP fuel (PMode.objFields []) other)
       | c :: rest =>
           if c = '-' || c.isDigit then parseNumberTok (c :: rest) else none
       | [] => none)
  | Nat.succ fuel, PMode.arrElems acc, input =>
      (match parseP fuel PMode.val input with
       | none => none
       | some (v, rest) =>
           match skipWS rest with
           | ',' :: rest2 => parseP fuel (PMode.arrElems (v :: acc)) rest2
           | ']' :: rest2 => some (JValue.arr (v :: acc).reverse, rest2)
           | _ => none)
  | Nat.succ fuel, PMode.objFields acc, input =>
      (match skipWS input with
       | '"' :: rest =>
           (match parseStringBody rest with
            | none => none
            | some (key, rest2) =>
              match skipWS rest2 with
              | ':' :: rest3 =>
                (match parseP fuel PMode.val rest3 with
                 | none => none
                 | some (v, rest4) =>
                   match skipWS rest4 with
                   | ',' :: rest5 => parseP fuel (PMode.objFields ((String.mk key, v) :: acc)) rest5
                   | '\x7d' :: rest5 => some (JValue.obj ((String.mk key, v) :: acc).reverse, rest5)
                   | _ => none)
              | _ => none)
       | _ => none)

/-- Parse one JSON value from the front of the input. -/
def parseValue (fuel : Nat) (input : List Char) : Option (JValue × List Char) :=
  parseP fuel PMode.val input

/-- Parse a complete JSON document: one value, with nothing but whitespace
after it, as Go's json.Unmarshal requires. -/
def parseJSON (s : String) : Option JValue :=
  match parseValue (2 * s.length + 4) s.data with
  | some (v, rest) => if skipWS rest = [] then some v else none
  | none => none

/-- Decode one JSON array element into a []string element, as Go does:
a string is taken verbatim, null leaves the zero value (empty string),
anything else is a type error. -/
def decodeRecipient : JValue → Option String
  | JValue.str s => some s
  | JValue.null => some ""
  | _ => none

/-- ASCII-lowercase a string character by character — the case folding
Go's field matching performs on these all-ASCII json tags. -/
def lowerAscii (s : String) : String := String.mk (s.data.map Char.toLower)

/-- Apply one object field to the partially-decoded Mail, following Go's
encoding/json field matching: keys are matched to the struct's json tags
case-insensitively, unknown keys are ignored, null leaves the field at its
zero value, and a type mismatch is an error. -/
def applyField (m : Mail) : String × JValue → Option Mail
  | (key, v) =>
      if lowerAscii key = "subject" then
        match v with
        | JValue.str s => some { m with subject := s }
        | JValue.null => some m
        | _ => none
      else if lowerAscii key = "message" then
        match v with
        | JValue.str s => some { m with message := s }
        | JValue.null => some m
        | _ => none
      else if lowerAscii key = "recipients" then
        match v with
        | JValue.arr vs => (vs.mapM decodeRecipient).map (fun rs => { m with recipients := rs })
        | JValue.null => some m
        | _ => none
      else some m

/-- Model of json.Unmarshal(payload, &task) for the Mail struct: parse the
payload as JSON, then require a top-level object (or null, which Go accepts
and which leaves the zero value) and fold its fields over the zero Mail.
none models a non-nil error, in which case the dispatch loop discards the
payload. -/
def unmarshalMail (payload : String) : Option Mail :=
  match parseJSON payload with
  | none => none
  | some JValue.null => some { subject := "", message := "", recipients := [] }
  | some (JValue.obj fields) =>
      fields.foldlM applyField { subject := "", message := "", recipients := [] }
  | some _ => none

/-- Process phases: running normally; draining after the single interrupt
(main past the signal receive, blocked in wg.Wait); exited gracefully
(main returned); or terminated fatally by log.Fatalln on a pop error
(os.Exit, no drain). -/
inductive Phase where
  | running
  | draining
  | exited
  | fatal
deriving DecidableEq, Repr

/-- Global state of the worker: the current phase, the WaitGroup counter,
the multiset of spawned-but-unfinished deliveries (as a list), the queue
contents still pending on the popped list, and the emitted log events. -/
structure SysState where
  phase : Phase
  counter : Int
  inFlight : List Mail
  pending : List String
  logs : List LogEvent
deriving DecidableEq, Repr

/-- Labels naming which code path a transition takes. -/
inductive Label where
  | popFail (payload : String)
  | dispatch (payload : String) (t : Mail)
  | conclude (t : Mail)
  | interrupt
  | exitOk
  | popFatal
deriving DecidableEq, Repr

/-- The phases in which goroutines still run: the dispatch loop keeps
popping and deliveries keep completing both before and during the drain. -/
def Phase.active : Phase → Prop
  | Phase.running => True
  | Phase.draining => True
  | Phase.exited => False
  | Phase.fatal => False

instance (p : Phase) : Decidable p.active := by
  cases p <;> simp [Phase.active] <;> infer_instance

/-- One small step of the worker, mirroring the loop body, the delivery
goroutine, and the shutdown sequence of main:
popFail — BRPop returns the head payload, json.Unmarshal fails, the error
is logged and the loop continues without touching the WaitGroup;
dispatch — the head payload decodes, wg.Add(1) runs, and the delivery
goroutine for the task is spawned;
conclude — one in-flight delivery returns from sendMail (success or
failure) and its goroutine runs wg.Done();
interrupt — the buffered signal channel delivers the single interrupt,
main logs the draining notice and enters wg.Wait;
exitOk — wg.Wait observes counter zero and main returns;
popFatal — BRPop reports an error and log.Fatalln terminates the
process immediately. -/
inductive Step : SysState → Label → SysState → Prop where
  | popFail {s : SysState} {p : String} {rest : List String} :
      s.phase.active → s.pending = p :: rest → unmarshalMail p = none →
      Step s (Label.popFail p)
        { s with pending := rest,
                 logs := s.logs ++ [LogEvent.processing, LogEvent.unmarshalError] }
  | dispatch {s : SysState} {p : String} {rest : List String} {t : Mail} :
      s.phase.active → s.pending = p :: rest → unmarshalMail p = some t →
      Step s (Label.dispatch p t)
        { s with pending := rest,
                 counter := s.counter + 1,
                 inFlight := s.inFlight ++ [t],
                 logs := s.logs ++ [LogEvent.processing] }
  | conclude {s : SysState} {t : Mail} :
      s.phase.active → t ∈ s.inFlight →
      Step s (Label.conclude t)
        { s with counter := s.counter - 1,
                 inFlight := s.inFlight.erase t }
  | interrupt {s : SysState} :
      s.phase = Phase.running →
      Step s Label.interrupt
        { s with phase := Phase.draining,
                 logs := s.logs ++ [LogEvent.drainingNotice] }
  | exitOk {s : SysState} :
      s.phase = Phase.draining → s.counter = 0 →
      Step s Label.exitOk
        { s with phase := Phase.exited,
                 logs := s.logs ++ [LogEvent.tasksFinished, LogEvent.exiting] }
  | popFatal {s : SysState} :
      s.phase.active →
      Step s Label.popFatal
        { s with phase := Phase.fatal,
                 logs := s.logs ++ [LogEvent.popFatalError] }

/-- The worker's initial state: running, WaitGroup at zero, nothing in
flight, the given payloads waiting on the queue. -/
def initState (pending : List String) : SysState :=
  { phase := Phase.running, counter := 0, inFlight := [], pending := pending, logs := [] }

/-- Reflexive-transitive closure of Step: the states a run can reach. -/
inductive Reach (s0 : SysState) : SysState → Prop where
  | refl : Reach s0 s0
  | tail {s s' : SysState} {l : Label} : Reach s0 s → Step s l s' → Reach s0 s'

/-- The counter movement each code path performs: +1 at wg.Add before a
spawn, -1 at wg.Done when a delivery concludes, 0 everywhere else. -/
def counterDelta : Label → Int
  | Label.dispatch _ _ => 1
  | Label.conclude _ => -1
  | _ => 0

/-- The rendered-message shape the spec describes, stated in the spec's
words for comparison with the source's Mailer.render: the fixed MIME
header block with the recipients joined by ", " in the To header, the
sender in the From header, the subject in the Subject header, and the body
following after the blank line. -/
def specRenderedMessage (sender subject body : String) (recipients : List String) : String :=
  "Content-Type: text/html; charset=\"UTF-8\";\r\nTo: " ++ String.intercalate (", ") recipients ++
  "\r\nFrom: " ++ sender ++ "\r\nSubject: " ++ subject ++ "\r\n\r\n" ++ body

lemma goSprintf_nil (args : List String) : goSprintf [] args = [] := rfl

lemma goSprintf_verbS (rest : List Char) (a : String) (args : List String) :
    goSprintf ('%' :: 's' :: rest) (a :: args) = a.data ++ goSprintf rest args := rfl

lemma goSprintf_plain (pre fmt : List Char) (args : List String) (h : '%' ∉ pre) :
    goSprintf (pre ++ fmt) args = pre ++ goSprintf fmt args := by
  induction pre with
  | nil => rfl
  | cons c cs ih =>
      have hc : c ≠ '%' := by
        intro hcc
        exact h (hcc ▸ List.mem_cons_self c cs)
      have hcs : '%' ∉ cs := fun hm => h (List.mem_cons_of_mem c hm)
      show goSprintf (c :: (cs ++ fmt)) args = _
      rw [goSprintf.eq_def]
      simp only [if_neg hc]
      rw [ih hcs]
      rfl

lemma goSprintf_template (j s subj b : String) :
    goSprintf messageTemplate.data [j, s, subj, b] =
      "Content-Type: text/html; charset=\"UTF-8\";\r\nTo: ".data ++ j.data ++
      "\r\nFrom: ".data ++ s.data ++ "\r\nSubject: ".data ++ subj.data ++
      "\r\n\r\n".data ++ b.data := by
  show goSprintf ("Content-Type: text/html; charset=\"UTF-8\";\r\nTo: ".data ++
      ('%' :: 's' :: ("\r\nFrom: ".data ++ ('%' :: 's' :: ("\r\nSubject: ".data ++
      ('%' :: 's' :: ("\r\n\r\n".data ++ ['%', 's'])))))))
      [j, s, subj, b] = _
  rw [goSprintf_plain _ _ _ (by decide), goSprintf_verbS,
      goSprintf_plain _ _ _ (by decide), goSprintf_verbS,
      goSprintf_plain _ _ _ (by decide), goSprintf_verbS,
      goSprintf_plain _ _ _ (by decide), goSprintf_verbS, goSprintf_nil]
  simp [List.append_assoc]

lemma render_template_eq (m : Mailer) (mail : Mail) (ht : m.template = messageTemplate) :
    m.render mail = specRenderedMessage m.senderAddress mail.subject mail.message mail.recipients := by
  apply String.ext
  show goSprintf m.template.data
      [String.intercalate (", ") mail.recipients, m.senderAddress, mail.subject, mail.message] = _
  rw [ht, goSprintf_template]
  simp [specRenderedMessage, String.data_append, List.append_assoc]

/-- The recipient addresses that receive an RCPT TO command in a
transcript. -/
def rcptTargets (acts : List SMTPAction) : List String :=
  acts.filterMap (fun a => match a with | SMTPAction.rcptTo r => some r | _ => none)

/-- The byte sequences streamed over DATA connections in a transcript. -/
def dataPayloads (acts : List SMTPAction) : List (List Char) :=
  acts.filterMap (fun a => match a with | SMTPAction.dataStream bs => some bs | _ => none)

lemma step_counter {s s' : SysState} {l : Label} (hs : Step s l s') :
    s'.counter = s.counter + counterDelta l := by
  cases hs <;> simp [counterDelta, Int.sub_eq_add_neg]

lemma reach_counter_eq_inFlight {q : List String} {s : SysState}
    (h : Reach (initState q) s) : s.counter = s.inFlight.length := by
  induction h with
  | refl => rfl
  | tail hr hs ih =>
      cases hs with
      | popFail ha hp hd => simpa using ih
      | dispatch ha hp hd => simp [List.length_append, ih]
      | conclude ha hm =>
          have hlen := List.length_erase_of_mem hm
          have hpos : 0 < _ := List.length_pos.mpr (List.ne_nil_of_mem hm)
          simp only [hlen]
          omega
      | interrupt hp => simpa using ih
      | exitOk hp hc => simpa using ih
      | popFatal ha => simpa using ih

lemma step_logs_mono {s s' : SysState} {l : Label} (hs : Step s l s') {e : LogEvent}
    (he : e ∈ s.logs) : e ∈ s'.logs := by
  cases hs <;> simp [he]

lemma drain_notice_logged {q : List String} {s : SysState}
    (h : Reach (initState q) s)
    (hp : s.phase = Phase.draining ∨ s.phase = Phase.exited) :
    LogEvent.drainingNotice ∈ s.logs := by
  induction h with
  | refl => simp [initState] at hp
  | tail hr hs ih =>
      cases hs with
      | popFail ha hpend hd => exact List.mem_append_left _ (ih hp)
      | dispatch ha hpend hd => exact List.mem_append_left _ (ih hp)
      | conclude ha hm => exact ih hp
      | interrupt hph => simp
      | exitOk hph hc => exact List.mem_append_left _ (ih (Or.inl hph))
      | popFatal ha => simp at hp

lemma not_active_of_exited (p : Phase) (h : p = Phase.exited) : ¬ p.active := by
  subst h
  intro hx
  exact hx

/-- Claim C1: the Outstanding-Work Counter is conserved. In every reachable
state the counter is non-negative and equals the number of deliveries in
flight; every step moves the counter exactly by its code path's delta — +1
exactly at a dispatch (the wg.Add(1) immediately before the delivery
goroutine is spawned), -1 exactly at a delivery's conclusion (the wg.Done()
after sendMail returns, whether the SMTP transaction succeeded or failed),
and 0 on every other path — and a dispatch followed by that delivery's
conclusion returns the counter to its pre-dispatch value. -/
theorem outstandingWorkCounterConserved (q : List String) (s : SysState)
    (h : Reach (initState q) s) :
    (0 ≤ s.counter ∧ s.counter = s.inFlight.length) ∧
    (∀ l s', Step s l s' → s'.counter = s.counter + counterDelta l) ∧
    (∀ p t s1 s2, Step s (Label.dispatch p t) s1 → Step s1 (Label.conclude t) s2 →
      s2.counter = s.counter) := by
  have hinv := reach_counter_eq_inFlight h
  refine ⟨⟨by rw [hinv]; exact Int.natCast_nonneg _, hinv⟩,
    fun l s' hs => step_counter hs, fun p t s1 s2 h1 h2 => ?_⟩
  have e1 := step_counter h1
  have e2 := step_counter h2
  simp [counterDelta] at e1 e2
  omega

/-- Witness for outstandingWorkCounterConserved at the initial state of a
run with one queued payload. -/
theorem outstandingWorkCounterConserved_witness :
    ((0 ≤ (initState ["x"]).counter ∧
        (initState ["x"]).counter = (initState ["x"]).inFlight.length) ∧
      (∀ l s', Step (initState ["x"]) l s' →
        s'.counter = (initState ["x"]).counter + counterDelta l) ∧
      (∀ p t s1 s2, Step (initState ["x"]) (Label.dispatch p t) s1 →
        Step s1 (Label.conclude t) s2 → s2.counter = (initState ["x"]).counter)) :=
  outstandingWorkCounterConserved ["x"] (initState ["x"]) Reach.refl

/-- Claim C2: the only step that reaches the gracefully-exited phase is the
exit transition, which fires from the draining phase entered by the single
interrupt, with the draining notice already logged, and only once the
counter has reached zero — at which point nothing is in flight; moreover no
step ever shrinks the in-flight set except a delivery's own conclusion, so
no in-flight delivery is cancelled. -/
theorem drainBeforeExit (q : List String) (s s' : SysState) (l : Label)
    (hr : Reach (initState q) s) (hs : Step s l s') (he : s'.phase = Phase.exited) :
    l = Label.exitOk ∧ s.phase = Phase.draining ∧ s.counter = 0 ∧
    s.inFlight = [] ∧ LogEvent.drainingNotice ∈ s.logs ∧
    (∀ u v : SysState, ∀ l2 : Label, Step u l2 v →
      v.inFlight.length < u.inFlight.length → ∃ t, l2 = Label.conclude t) := by
  have hnocancel : ∀ u v : SysState, ∀ l2 : Label, Step u l2 v →
      v.inFlight.length < u.inFlight.length → ∃ t, l2 = Label.conclude t := by
    intro u v l2 hst hlt
    cases hst with
    | popFail ha hp hd => simp at hlt
    | dispatch ha hp hd => simp [List.length_append] at hlt
    | conclude ha hm => exact ⟨_, rfl⟩
    | interrupt hp => simp at hlt
    | exitOk hp hc => simp at hlt
    | popFatal ha => simp at hlt
  cases hs with
  | popFail ha hp hd => exact absurd ha (not_active_of_exited _ he)
  | dispatch ha hp hd => exact absurd ha (not_active_of_exited _ he)
  | conclude ha hm => exact absurd ha (not_active_of_exited _ he)
  | interrupt hp => exact Phase.noConfusion he
  | popFatal ha => exact Phase.noConfusion he
  | exitOk hph hc =>
      have hinv := reach_counter_eq_inFlight hr
      have hlen : s.inFlight.length = 0 := by omega
      exact ⟨rfl, hph, hc, List.length_eq_zero.mp hlen,
        drain_notice_logged hr (Or.inl hph), hnocancel⟩

/-- Witness for drainBeforeExit on a concrete run: empty queue, one
interrupt, then the exit step. -/
theorem drainBeforeExit_witness :
    ({ phase := Phase.draining, counter := 0, inFlight := [], pending := [],
       logs := [LogEvent.drainingNotice] } : SysState).phase = Phase.draining ∧
    ({ phase := Phase.draining, counter := 0, inFlight := [], pending := [],
       logs := [LogEvent.drainingNotice] } : SysState).counter = 0 ∧
    LogEvent.drainingNotice ∈
      ({ phase := Phase.draining, counter := 0, inFlight := [], pending := [],
         logs := [LogEvent.drainingNotice] } : SysState).logs := by
  obtain ⟨-, h2, h3, -, h5, -⟩ :=
    drainBeforeExit [] _ _ Label.exitOk
      (Reach.tail Reach.refl (Step.interrupt rfl)) (Step.exitOk rfl rfl) rfl
  exact ⟨h2, h3, h5⟩

/-- Claim C3: for every task with at least one recipient, the message the
Mailer renders from the fixed template equals the spec's described form:
the recipients joined by ", " substituted into the To header, the
configured sender into From, the task subject into Subject, and the task
body after the blank line. -/
theorem renderedMessageMatchesSpec (m : Mailer) (mail : Mail)
    (ht : m.template = messageTemplate) (_hr : mail.recipients ≠ []) :
    m.render mail =
      specRenderedMessage m.senderAddress mail.subject mail.message mail.recipients :=
  render_template_eq m mail ht

/-- Witness for renderedMessageMatchesSpec on a concrete two-recipient
task. -/
theorem renderedMessageMatchesSpec_witness :
    ({ template := messageTemplate, senderAddress := "post@example.com", host := "smtp.example.com",
       port := "25", auth := none } : Mailer).render
      { subject := "Sub", message := "Body", recipients := ["a@x.com", "b@x.com"] } =
    specRenderedMessage ("post@example.com") ("Sub") ("Body") ["a@x.com", "b@x.com"] :=
  renderedMessageMatchesSpec _ _ rfl (by decide)

/-- Claim C4: transport selection. When both configured credentials are
non-empty, the mailer is built with the plain-auth value, no warning is
logged, and every delivery is one authenticated smtp.SendMail submission
against host:port; otherwise the auth field stays nil, the startup warning
is logged, and every delivery takes the unauthenticated session path. -/
theorem transportSelection (options : AppOptions) :
    (0 < options.SMTPUsername.length ∧ 0 < options.SMTPPassword.length →
      (mkMailer options).1.auth =
        some { identity := "", username := options.SMTPUsername,
               password := options.SMTPPassword, host := options.SMTPHost } ∧
      (mkMailer options).2 = [] ∧
      ∀ mail : Mail,
        (mkMailer options).1.sendMail mail =
          some [SMTPAction.sendMailAuth (options.SMTPHost ++ ":" ++ options.SMTPPort)
            { identity := "", username := options.SMTPUsername,
              password := options.SMTPPassword, host := options.SMTPHost }
            options.SenderAddress mail.recipients ((mkMailer options).1.render mail)]) ∧
    (¬ (0 < options.SMTPUsername.length ∧ 0 < options.SMTPPassword.length) →
      (mkMailer options).1.auth = none ∧
      (mkMailer options).2 = [LogEvent.authWarning] ∧
      ∀ mail : Mail,
        (mkMailer options).1.sendMail mail =
          (mkMailer options).1.sendMailUnauthenticated
            { mail with message := (mkMailer options).1.render mail }) := by
  constructor
  · intro h
    have hmk : mkMailer options =
        ({ template := messageTemplate, senderAddress := options.SenderAddress,
           host := options.SMTPHost, port := options.SMTPPort,
           auth := some { identity := "", username := options.SMTPUsername,
                          password := options.SMTPPassword, host := options.SMTPHost } }, []) := by
      simp only [mkMailer]
      rw [if_pos h]
    rw [hmk]
    exact ⟨rfl, rfl, fun mail => rfl⟩
  · intro h
    have hmk : mkMailer options =
        ({ template := messageTemplate, senderAddress := options.SenderAddress,
           host := options.SMTPHost, port := options.SMTPPort, auth := none },
         [LogEvent.authWarning]) := by
      simp only [mkMailer]
      rw [if_neg h]
    rw [hmk]
    exact ⟨rfl, rfl, fun mail => rfl⟩

/-- A concrete configuration with no credentials set. -/
def optsNoAuth : AppOptions :=
  { SMTPUsername := "", SMTPPassword := "", SMTPHost := "smtp.example.com",
    SMTPPort := "25", SenderAddress := "post@example.com",
    RedisAddress := "redis:6379", RedisKey := "tasks" }

/-- A concrete configuration with both credentials set. -/
def optsAuth : AppOptions :=
  { optsNoAuth with SMTPUsername := "user", SMTPPassword := "pass" }

/-- The plain-auth value optsAuth produces. -/
def plainAuthOfOptsAuth : PlainAuth :=
  { identity := "", username := "user", password := "pass", host := "smtp.example.com" }

/-- Witness for transportSelection: both branches exercised on concrete
configurations, one with credentials and one without. -/
theorem transportSelection_witness :
    (mkMailer optsAuth).1.auth = some plainAuthOfOptsAuth ∧
    (mkMailer optsNoAuth).2 = [LogEvent.authWarning] := by
  exact ⟨((transportSelection optsAuth).1 (by decide)).1,
    ((transportSelection optsNoAuth).2 (by decide)).2.1⟩

/-- Claim C5: in the unauthenticated transport path, a task with two or
more recipients renders a To header listing every recipient joined by
", ", yet the session issues exactly one RCPT TO command, for the first
recipient only. -/
theorem unauthenticatedFirstRecipientOnly (m : Mailer) (mail : Mail) (r1 r2 : String)
    (rs : List String) (ht : m.template = messageTemplate) (ha : m.auth = none)
    (hr : mail.recipients = r1 :: r2 :: rs) :
    ∃ acts, m.sendMail mail = some acts ∧ rcptTargets acts = [r1] ∧
      m.render mail =
        specRenderedMessage m.senderAddress mail.subject mail.message (r1 :: r2 :: rs) := by
  have hsend : m.sendMail mail =
      some [SMTPAction.dial (m.host ++ ":" ++ m.port),
            SMTPAction.mailFrom m.senderAddress,
            SMTPAction.rcptTo r1,
            SMTPAction.dataStream (goSprintf (m.render mail).data []),
            SMTPAction.quit] := by
    simp only [Mailer.sendMail, ha, Mailer.sendMailUnauthenticated, hr]
  exact ⟨_, hsend, by simp [rcptTargets], hr ▸ render_template_eq m mail ht⟩

/-- Witness for unauthenticatedFirstRecipientOnly on a concrete
two-recipient task. -/
theorem unauthenticatedFirstRecipientOnly_witness :
    ∃ acts,
      ({ template := messageTemplate, senderAddress := "post@example.com",
         host := "smtp.example.com", port := "25", auth := none } : Mailer).sendMail
        { subject := "Sub", message := "Body", recipients := ["a@x.com", "b@x.com"] } =
        some acts ∧
      rcptTargets acts = ["a@x.com"] ∧
      ({ template := messageTemplate, senderAddress := "post@example.com",
         host := "smtp.example.com", port := "25", auth := none } : Mailer).render
        { subject := "Sub", message := "Body", recipients := ["a@x.com", "b@x.com"] } =
        specRenderedMessage ("post@example.com") ("Sub") ("Body") ["a@x.com", "b@x.com"] :=
  unauthenticatedFirstRecipientOnly _ _ ("a@x.com") ("b@x.com") [] rfl rfl rfl

/-- Claim C6 (the code violates it): a zero-recipient task makes the
unauthenticated transport path panic — sendMailUnauthenticated evaluates
mail.Recipients[0] on an empty slice — while the authenticated path
returns without panicking; the Mail Sender therefore does not handle the
empty-recipient case without crashing on the unauthenticated path. -/
theorem emptyRecipientsPanics :
    (mkMailer optsNoAuth).1.sendMail { subject := "s", message := "b", recipients := [] } =
      none ∧
    ((mkMailer optsAuth).1.sendMail
      { subject := "s", message := "b", recipients := [] }).isSome = true := by
  exact ⟨rfl, rfl⟩

/-- The payload of claim C7's counterexample: a valid JSON object with no
recipients field. -/
def missingRecipientsPayload : String := "\x7b\"subject\":\"hi\"\x7d"

/-- The task missingRecipientsPayload decodes to: absent fields keep their
zero values. -/
def missingRecipientsTask : Mail := { subject := "hi", message := "", recipients := [] }

/-- Claim C7 counterexample: a payload missing the recipients field is not
a decode failure — json.Unmarshal leaves absent fields at their zero
values and returns no error — so the task is dispatched and the counter
moves off its pre-pop value. -/
theorem missingRecipientsStillDispatched :
    unmarshalMail missingRecipientsPayload = some missingRecipientsTask ∧
    Step (initState [missingRecipientsPayload])
      (Label.dispatch missingRecipientsPayload missingRecipientsTask)
      { phase := Phase.running, counter := 1, inFlight := [missingRecipientsTask],
        pending := [], logs := [LogEvent.processing] } := by
  refine ⟨by decide, ?_⟩
  exact Step.dispatch (by trivial) rfl (by decide)

/-- Claim C7 (amended): for every payload on which JSON decoding fails —
for instance input that is not JSON at all — the dispatch loop cannot take
a dispatch step for it, and its decode-failure step attempts no delivery,
leaving the counter and the in-flight set untouched; a payload that is
valid JSON but merely missing the recipients field, by contrast, decodes
successfully. -/
theorem undecodablePayloadLeavesCounterUnchanged (s : SysState) (p : String)
    (rest : List String) (hp : s.pending = p :: rest) (hd : unmarshalMail p = none) :
    (∀ t s', ¬ Step s (Label.dispatch p t) s') ∧
    (∀ s', Step s (Label.popFail p) s' →
      s'.counter = s.counter ∧ s'.inFlight = s.inFlight ∧ s'.pending = rest) ∧
    unmarshalMail ("notjson") = none := by
  refine ⟨?_, ?_, by decide⟩
  · intro t s' hstep
    cases hstep with
    | dispatch ha hp2 hd2 =>
        rw [hd] at hd2
        exact Option.noConfusion hd2
  · intro s' hstep
    cases hstep with
    | popFail ha hp2 hd2 =>
        refine ⟨rfl, rfl, ?_⟩
        rw [hp] at hp2
        injection hp2 with h1 h2
        exact h2.symm

/-- Witness for undecodablePayloadLeavesCounterUnchanged at a concrete
undecodable head payload. -/
theorem undecodablePayloadLeavesCounterUnchanged_witness :
    (∀ t s', ¬ Step (initState ["notjson", "next"]) (Label.dispatch ("notjson") t) s') ∧
    (∀ s', Step (initState ["notjson", "next"]) (Label.popFail ("notjson")) s' →
      s'.counter = (initState ["notjson", "next"]).counter ∧
      s'.inFlight = (initState ["notjson", "next"]).inFlight ∧
      s'.pending = ["next"]) ∧
    unmarshalMail ("notjson") = none :=
  undecodablePayloadLeavesCounterUnchanged _ _ _ rfl (by decide)

/-- Claim C8: when decoding the popped payload fails, the loop logs the
error, discards the payload, and keeps running with the counter and
in-flight set untouched; it can then pop the next entry — the decode
failure neither crashes nor terminates the loop. -/
theorem decodeFailureContinuesLoop (s : SysState) (p : String) (rest : List String)
    (hph : s.phase = Phase.running) (hp : s.pending = p :: rest)
    (hd : unmarshalMail p = none) :
    ∃ s', Step s (Label.popFail p) s' ∧ s'.phase = Phase.running ∧ s'.pending = rest ∧
      s'.counter = s.counter ∧ s'.inFlight = s.inFlight ∧
      s'.logs = s.logs ++ [LogEvent.processing, LogEvent.unmarshalError] ∧
      ∀ p2 rest2, rest = p2 :: rest2 → ∃ l2 s2, Step s' l2 s2 ∧ s2.pending = rest2 := by
  have hact : s.phase.active := by rw [hph]; trivial
  refine ⟨_, Step.popFail hact hp hd, hph, rfl, rfl, rfl, rfl, ?_⟩
  intro p2 rest2 h2
  cases hm : unmarshalMail p2 with
  | none => exact ⟨Label.popFail p2, _, Step.popFail hact h2 hm, rfl⟩
  | some t => exact ⟨Label.dispatch p2 t, _, Step.dispatch hact h2 hm, rfl⟩

/-- Witness for decodeFailureContinuesLoop at a queue holding two
undecodable payloads. -/
theorem decodeFailureContinuesLoop_witness :
    ∃ s', Step (initState ["bad", "alsobad"]) (Label.popFail ("bad")) s' ∧
      s'.phase = Phase.running ∧ s'.pending = ["alsobad"] ∧
      s'.counter = (initState ["bad", "alsobad"]).counter ∧
      s'.inFlight = (initState ["bad", "alsobad"]).inFlight ∧
      s'.logs = (initState ["bad", "alsobad"]).logs ++
        [LogEvent.processing, LogEvent.unmarshalError] ∧
      ∀ p2 rest2, ["alsobad"] = p2 :: rest2 →
        ∃ l2 s2, Step s' l2 s2 ∧ s2.pending = rest2 :=
  decodeFailureContinuesLoop _ _ _ rfl rfl (by decide)

/-- The environment of claim C9's failing input: every required variable
set, and REDIS_KEY set to "jobs". -/
def envWithJobsKey : String → Option String := fun k =>
  if k = smtpHostKey then some ("smtp.example.com")
  else if k = smtpPortKey then some ("25")
  else if k = senderAddressKey then some ("post@example.com")
  else if k = redisAddressKey then some ("redis:6379")
  else if k = redisKeyKey then some ("jobs")
  else none

/-- Claim C9 (the code violates it): with REDIS_KEY set to "jobs" the
validated options carry RedisKey "jobs", yet the dispatch loop's pop
targets the hard-coded literal "tasks"; the configured queue key is
ignored, and only the unset-defaults-to-"tasks" half of the claim holds. -/
theorem popTargetsHardcodedList :
    validateEnvironment envWithJobsKey =
      Except.ok ({ SMTPUsername := "", SMTPPassword := "",
                   SMTPHost := "smtp.example.com", SMTPPort := "25",
                   SenderAddress := "post@example.com", RedisAddress := "redis:6379",
                   RedisKey := "jobs" } : AppOptions) ∧
    dispatchPopKey = "tasks" ∧ dispatchPopKey ≠ "jobs" := by
  exact ⟨rfl, rfl, by decide⟩

/-- The task of claim C10's failing input: its body contains the %s
verb. -/
def pctMail : Mail :=
  { subject := "Sale", message := "Save 100%s", recipients := ["a@x.com"] }

/-- The bytes the unauthenticated path actually streams for pctMail: the
rendered message with its trailing %s expanded by Fprintf into Go's
missing-operand text. -/
def pctStreamed : String :=
  "Content-Type: text/html; charset=\"UTF-8\";\r\nTo: a@x.com\r\nFrom: post@example.com\r\nSubject: Sale\r\n\r\nSave 100%!s(MISSING)"

/-- Claim C10 (the code violates it): the body write passes the rendered
message to fmt.Fprintf as its format string, so a message containing a
verb is altered in transit — for pctMail the streamed bytes end in
"%!s(MISSING)" and differ from the rendered message. -/
theorem dataStreamAlteredByFprintf :
    Option.map dataPayloads ((mkMailer optsNoAuth).1.sendMail pctMail) =
      some [pctStreamed.data] ∧
    pctStreamed ≠ (mkMailer optsNoAuth).1.render pctMail := by
  exact ⟨by decide, by decide⟩
